import Mathlib

/-!
Verification of the session protocol client of the multimodal live API web
console (file `src/config/env-config.ts`, class `MultimodalLiveClient`).

The development shallowly embeds the inbound-message processing of the client:
the tool-call gatekeeper, the content/audio demultiplexer, the connect and
disconnect lifecycle, and the config accessor.  JavaScript values that flow
through the code (the `args` of a function call, JSON serialization, string
splitting, truthiness) are modelled explicitly so that the validation logic can
be traced line by line against the source.
-/

namespace MMClient

/-! ## JSON values and JavaScript-semantics helpers -/

/-- A JSON value, as produced by parsing a wire frame.  `FunctionCall.args`
ranges over these. -/
inductive JValue where
  | null : JValue
  | bool : Bool → JValue
  | num : Int → JValue
  | str : String → JValue
  | arr : List JValue → JValue
  | obj : List (String × JValue) → JValue
deriving Repr

/-- Escape of one character inside a JSON string literal, as
`JSON.stringify` performs it for the characters that occur in this model. -/
def jsEscapeChar (c : Char) : String :=
  if c = '"' then "\\\"" else if c = '\\' then "\\\\" else if c = '\n' then "\\n" else String.singleton c

/-- Escape of a whole string for embedding in JSON output. -/
def jsEscape (s : String) : String :=
  String.join (s.toList.map jsEscapeChar)

/-- A JSON string literal: the escaped text between double quotes. -/
def quoteStr (s : String) : String := "\"" ++ jsEscape s ++ "\""

mutual

/-- Embedding of `JSON.stringify` on a parsed JSON value (compact form, no
spacing), as used at `env-config.ts:254` on `fc.args`. -/
def jsonStringify : JValue → String
  | .null => "null"
  | .bool true => "true"
  | .bool false => "false"
  | .num n => toString n
  | .str s => quoteStr s
  | .arr xs => "[" ++ jsonStringifyArr xs ++ "]"
  | .obj kvs => "\x7b" ++ jsonStringifyObj kvs ++ "\x7d"

/-- Comma-separated serialization of the elements of a JSON array. -/
def jsonStringifyArr : List JValue → String
  | [] => ""
  | [x] => jsonStringify x
  | x :: y :: t => jsonStringify x ++ "," ++ jsonStringifyArr (y :: t)

/-- Comma-separated serialization of the key-value pairs of a JSON object. -/
def jsonStringifyObj : List (String × JValue) → String
  | [] => ""
  | [(k, v)] => quoteStr k ++ ":" ++ jsonStringify v
  | (k, v) :: y :: t => quoteStr k ++ ":" ++ jsonStringify v ++ "," ++ jsonStringifyObj (y :: t)

end

/-- JavaScript truthiness of a JSON value (`!v` in the source is the negation
of this).  `undefined` for an absent property is modelled by `JValue.null`,
which is falsy exactly like `undefined`. -/
def jsTruthy : JValue → Bool
  | .null => false
  | .bool b => b
  | .num n => n != 0
  | .str s => s != ""
  | .arr _ => true
  | .obj _ => true

/-- The check `typeof fc.args === "object" && fc.args && !Array.isArray(fc.args)`
at `env-config.ts:248`: true exactly for a plain key-value mapping. -/
def isPlainObject : JValue → Bool
  | .obj _ => true
  | _ => false

/-- JavaScript property access `v[k]` on a parsed JSON value: the bound value
when `v` is an object with key `k`, otherwise `undefined` (modelled `.null`). -/
def objGetD (v : JValue) (k : String) : JValue :=
  match v with
  | .obj kvs => (kvs.lookup k).getD .null
  | _ => .null

/-- Embedding of `Object.keys` on a parsed JSON value. -/
def objKeys : JValue → List String
  | .obj kvs => kvs.map Prod.fst
  | _ => []

mutual

/-- JavaScript string coercion of a value, as performed by template-literal
interpolation in `fetchPdfText` (`env-config.ts:193`). -/
def jsToString : JValue → String
  | .null => "null"
  | .bool true => "true"
  | .bool false => "false"
  | .num n => toString n
  | .str s => s
  | .arr xs => jsToStringArr xs
  | .obj _ => "[object Object]"

/-- Coercion of an array to a string: elements joined by commas, with null
elements rendered empty, as `Array.prototype.toString` does. -/
def jsToStringArr : List JValue → String
  | [] => ""
  | [x] => jsToStringElem x
  | x :: y :: t => jsToStringElem x ++ "," ++ jsToStringArr (y :: t)

/-- One array element under `Array.prototype.join`: null renders as the empty
string, every other value by its string coercion. -/
def jsToStringElem : JValue → String
  | .null => ""
  | .bool true => "true"
  | .bool false => "false"
  | .num n => toString n
  | .str s => s
  | .arr xs => jsToStringArr xs
  | .obj _ => "[object Object]"

end

/-- Decides whether `needle` occurs as a prefix of a suffix of the character
list, which is substring containment. -/
def infixAux (needle : List Char) : List Char → Bool
  | [] => needle.isEmpty
  | c :: t => List.isPrefixOf needle (c :: t) || infixAux needle t

/-- Embedding of `String.prototype.includes`: does `hay` contain `needle`
as a substring. -/
def strContains (hay needle : String) : Bool := infixAux needle.toList hay.toList

/-- String beginning test used for the audio media-type check, over the
character lists of both strings. -/
def strStartsWith (s pat : String) : Bool := List.isPrefixOf pat.toList s.toList

/-- Fuel-driven splitting of a character list at every occurrence of a
non-empty separator; the fuel is bounded below by the list length. -/
def splitFuel (sep : List Char) : Nat → List Char → List (List Char)
  | _, [] => [[]]
  | 0, l => [l]
  | fuel + 1, c :: rest =>
    if List.isPrefixOf sep (c :: rest) && !sep.isEmpty then
      [] :: splitFuel sep fuel (List.drop sep.length (c :: rest))
    else
      match splitFuel sep fuel rest with
      | [] => [[c]]
      | h :: t => (c :: h) :: t

/-- Embedding of `String.prototype.split` with a non-empty separator string. -/
def jsSplit (s sep : String) : List String :=
  (splitFuel sep.toList s.toList.length s.toList).map (fun l => ⟨l⟩)

/-- The expression `url.split("files/")[1]?.split("/")[0] || "your_file_uri"`
from the corrective message construction at `env-config.ts:428`. -/
def urlFileUri (url : String) : String :=
  match (jsSplit url "files/")[1]? with
  | none => "your_file_uri"
  | some rest =>
    match (jsSplit rest "/")[0]? with
    | none => "your_file_uri"
    | some h => if h = "" then "your_file_uri" else h

/-- Maps a base64 alphabet character to its 6-bit value; padding and foreign
characters map to `none`. -/
def b64Val (c : Char) : Option Nat :=
  if 'A' ≤ c ∧ c ≤ 'Z' then some (c.toNat - 65)
  else if 'a' ≤ c ∧ c ≤ 'z' then some (c.toNat - 97 + 26)
  else if '0' ≤ c ∧ c ≤ '9' then some (c.toNat - 48 + 52)
  else if c = '+' then some 62
  else if c = '/' then some 63
  else none

/-- Recombines a stream of 6-bit values into bytes, four values to three
bytes, with the usual truncation for a trailing group of two or three. -/
def b64Groups : List Nat → List Nat
  | a :: b :: c :: d :: rest =>
    (a * 4 + b / 16) :: ((b % 16) * 16 + c / 4) :: ((c % 4) * 64 + d) :: b64Groups rest
  | [a, b] => [a * 4 + b / 16]
  | [a, b, c] => [a * 4 + b / 16, (b % 16) * 16 + c / 4]
  | _ => []

/-- Modelled from the spec: `base64ToArrayBuffer` of the utils module (the
module itself is not under `src/`); standard base64 decoding of a string to
its byte sequence, "raw binary payload, decoded from base64". -/
def base64ToArrayBuffer (b64 : String) : List Nat :=
  b64Groups (b64.toList.filterMap b64Val)

/-! ## Content parts and messages -/

/-- The inline-data payload of a content part: a media type and a base64
payload. -/
structure InlineData where
  mimeType : String
  data : String
deriving Repr, DecidableEq

/-- A content part of a model turn: a text part or an inline-data part. -/
inductive Part where
  | text : String → Part
  | inlineData : InlineData → Part
deriving Repr, DecidableEq

/-- The optional-chaining access `p.inlineData` on a part. -/
def partInlineData : Part → Option InlineData
  | .inlineData d => some d
  | .text _ => none

/-- The access `p.inlineData?.data` on a part. -/
def audioDataOpt (p : Part) : Option String := (partInlineData p).map (fun d => d.data)

/-- A function call requested by the model: opaque id, function name, and a
parsed JSON `args` value. -/
structure FunctionCall where
  id : String
  name : String
  args : JValue
deriving Repr

/-- An inbound ToolCall frame: the ordered function calls it carries. -/
structure ToolCall where
  functionCalls : List FunctionCall
deriving Repr

/-- One entry of an outbound ToolResponse: the id answered and the response
object. -/
structure ToolResponseEntry where
  id : String
  response : JValue
deriving Repr

/-- The observable actions of the client while processing one inbound frame:
events emitted through the event emitter, messages sent on the socket, and
resource fetches started. -/
inductive Effect where
  | emitAudio : List Nat → Effect
  | emitContent : List Part → Effect
  | emitToolcall : ToolCall → Effect
  | sendToolResponse : List ToolResponseEntry → Effect
  | sendClientContent : List Part → Effect
  | fetchExec : String → Effect
deriving Repr

/-! ## Serialization of inbound frames, as the defensive checks see it -/

/-- Serialization of one part, as `JSON.stringify` renders it. -/
def stringifyPart : Part → String
  | .text s => "\x7b\"text\":" ++ quoteStr s ++ "\x7d"
  | .inlineData d =>
    "\x7b\"inlineData\":\x7b\"mimeType\":" ++ quoteStr d.mimeType ++ ",\"data\":" ++ quoteStr d.data ++ "\x7d\x7d"

/-- Comma-separated serialization of a part list. -/
def stringifyPartsSep : List Part → String
  | [] => ""
  | [p] => stringifyPart p
  | p :: q :: t => stringifyPart p ++ "," ++ stringifyPartsSep (q :: t)

/-- The string `JSON.stringify(parts)` checked at `env-config.ts:419`. -/
def stringifyParts (ps : List Part) : String := "[" ++ stringifyPartsSep ps ++ "]"

/-- Serialization of one function call inside a ToolCall frame. -/
def stringifyFunctionCall (fc : FunctionCall) : String :=
  "\x7b\"id\":" ++ quoteStr fc.id ++ ",\"name\":" ++ quoteStr fc.name ++ ",\"args\":" ++ jsonStringify fc.args ++ "\x7d"

/-- Comma-separated serialization of the function calls of a frame. -/
def stringifyFunctionCalls : List FunctionCall → String
  | [] => ""
  | [fc] => stringifyFunctionCall fc
  | fc :: g :: t => stringifyFunctionCall fc ++ "," ++ stringifyFunctionCalls (g :: t)

/-- The string `JSON.stringify(response)` of a whole inbound ToolCall frame,
checked at `env-config.ts:222`. -/
def stringifyToolCallFrame (tc : ToolCall) : String :=
  "\x7b\"toolCall\":\x7b\"functionCalls\":[" ++ stringifyFunctionCalls tc.functionCalls ++ "]\x7d\x7d"

/-- The four disallowed syntax markers scanned for in whole frames and in
model-turn parts (`env-config.ts:223` and `env-config.ts:420`). -/
def frameMarkers : List String := ["executableCode", "print(", "PYTHON", "code>"]

/-- Whether a serialized frame contains any disallowed syntax marker. -/
def containsAnyMarker (s : String) : Bool := frameMarkers.any (fun m => strContains s m)

/-! ## Tool-call gatekeeper (`receive`, tool-call branch) -/

/-- The list `invalidPatterns` of `env-config.ts:257`, verbatim and in source
order. -/
def invalidPatterns : List String :=
  ["print(", "pdf_lookup(", "default_api", "queries=", "question=", "uri=",
   "function(", ".lookup(", "executableCode", "PYTHON", "python", "console.log",
   "google_search", "search(", "code>", "pre>", "h5>", "executableCode: PYTHON",
   "code", "pre"]

/-- Whether the serialized `args` of a call contains a disallowed pattern. -/
def hasInvalidPattern (args : JValue) : Bool :=
  invalidPatterns.any (fun p => strContains (jsonStringify args) p)

/-- The corrective response sent on whole-frame code-syntax detection
(`env-config.ts:228`). -/
def codeSyntaxResponse : JValue :=
  .obj [("error", .str "CODE SYNTAX DETECTED: Must use pure JSON format"),
        ("example", .obj [("name", .str "pdf_lookup"),
                          ("args", .obj [("pdfUri", .str "uri_here")])])]

/-- The corrective response sent on a disallowed pattern in `args`
(`env-config.ts:290`). -/
def invalidFormatResponse : JValue :=
  .obj [("error", .str "INVALID FORMAT: Use only this JSON structure:"),
        ("example", .obj [("name", .str "pdf_lookup"),
                          ("args", .obj [("pdfUri", .str "your_uri_here")])])]

/-- The corrective response sent on a wrong `args` structure
(`env-config.ts:332`). -/
def invalidStructureResponse : JValue :=
  .obj [("error", .str "INVALID STRUCTURE: Only pdfUri parameter is allowed"),
        ("example", .obj [("name", .str "pdf_lookup"),
                          ("args", .obj [("pdfUri", .str "your_uri_here")])])]

/-- The uniform corrective response sent when the fetch batch fails
(`env-config.ts:373`). -/
def fetchFailResponse : JValue :=
  .obj [("error", .str "Failed to fetch PDF content. Remember to use JSON format: \x7b \"name\": \"pdf_lookup\", \"args\": \x7b \"pdfUri\": \"uri_here\" \x7d \x7d"),
        ("example", .obj [("name", .str "pdf_lookup"),
                          ("args", .obj [("pdfUri", .str "your_uri_here")])])]

/-- The filter callback of `env-config.ts:238`: decides whether a call joins
the valid set, and which corrective responses it sends on the way.  The first
component is the filter verdict, the second the messages sent while deciding. -/
def validateCall (fc : FunctionCall) : Bool × List Effect :=
  if fc.name ≠ "pdf_lookup" then (false, [])
  else if isPlainObject fc.args = false then (false, [])
  else if hasInvalidPattern fc.args then
    (false, [Effect.sendToolResponse [⟨fc.id, invalidFormatResponse⟩]])
  else if jsTruthy (objGetD fc.args "pdfUri") = false ∨ (objKeys fc.args).length ≠ 1 then
    (false, [Effect.sendToolResponse [⟨fc.id, invalidStructureResponse⟩]])
  else (true, [])

/-- The valid subset `pdfLookupCalls` of a frame, in original order. -/
def validCalls (calls : List FunctionCall) : List FunctionCall :=
  calls.filter (fun fc => (validateCall fc).1)

/-- The corrective responses sent while the filter runs, in call order. -/
def gateEffects (calls : List FunctionCall) : List Effect :=
  (calls.map (fun fc => (validateCall fc).2)).flatten

/-- Whether a fetch attempt resolved. -/
def fetchOk : Except Unit String → Bool
  | .ok _ => true
  | .error _ => false

/-- The text of a resolved fetch attempt. -/
def fetchText : Except Unit String → String
  | .ok s => s
  | .error _ => ""

/-- One mapped promise of `env-config.ts:351`: a guard throw when `pdfUri` is
falsy, otherwise a started fetch (recorded as an effect) and its outcome. -/
def callAttempt (f : String → Except Unit String) (fc : FunctionCall) :
    Option Effect × Except Unit String :=
  if jsTruthy (objGetD fc.args "pdfUri") = false then (none, .error ())
  else
    (some (.fetchExec (jsToString (objGetD fc.args "pdfUri"))),
     f (jsToString (objGetD fc.args "pdfUri")))

/-- The fetches started for the valid calls, in order. -/
def fetchExecEffects (f : String → Except Unit String) (valids : List FunctionCall) : List Effect :=
  valids.filterMap (fun fc => (callAttempt f fc).1)

/-- The outcome of each mapped promise, in order. -/
def attemptResults (f : String → Except Unit String) (valids : List FunctionCall) :
    List (Except Unit String) :=
  valids.map (fun fc => (callAttempt f fc).2)

/-- The execution phase of `env-config.ts:348`: when the valid set is
non-empty, start every fetch; if all resolve send one success batch, and if
any rejects send one uniform corrective batch for every valid call. -/
def execEffects (f : String → Except Unit String) (valids : List FunctionCall) : List Effect :=
  if 0 < valids.length then
    fetchExecEffects f valids ++
      [if (attemptResults f valids).all fetchOk then
        Effect.sendToolResponse
          ((valids.zip (attemptResults f valids)).map
            (fun p => ⟨p.1.id, JValue.obj [("text", JValue.str (fetchText p.2))]⟩))
      else
        Effect.sendToolResponse (valids.map (fun fc => ⟨fc.id, fetchFailResponse⟩))]
  else []

/-- The id of the whole-frame rejection entry:
`response.toolCall.functionCalls[0]?.id || "error"` (`env-config.ts:227`). -/
def firstIdOrError (tc : ToolCall) : String :=
  match tc.functionCalls with
  | [] => "error"
  | fc :: _ => if fc.id = "" then "error" else fc.id

/-- The tool-call branch of `receive` (`env-config.ts:217` to 386): the
whole-frame marker rejection, then validation, then execution, then the
`toolcall` event, as the ordered list of observable effects. -/
def receiveToolCall (f : String → Except Unit String) (tc : ToolCall) : List Effect :=
  if containsAnyMarker (stringifyToolCallFrame tc) then
    [Effect.sendToolResponse [⟨firstIdOrError tc, codeSyntaxResponse⟩]]
  else
    gateEffects tc.functionCalls ++ execEffects f (validCalls tc.functionCalls) ++
      [Effect.emitToolcall tc]

/-! ## Content/audio demultiplexer (`receive`, model-turn branch) -/

/-- The audio classification of `env-config.ts:457`: an inline-data part whose
media type begins with the literal prefix "audio/pcm". -/
def isAudioPart (p : Part) : Bool :=
  match partInlineData p with
  | some d => strStartsWith d.mimeType "audio/pcm"
  | none => false

/-- Embedding of the lodash `difference` call of `env-config.ts:463`: the
elements of the first list that do not occur in the second. -/
def lodashDifference (l1 l2 : List Part) : List Part :=
  l1.filter (fun x => !(l2.contains x))

/-- The corrective text built at `env-config.ts:424` when a model turn
contains disallowed syntax. -/
def modelTurnErrorText (url : String) : String :=
  "⚠️ ERROR: Invalid syntax detected. You must use this exact JSON format:\n\x7b\n  \"name\": \"pdf_lookup\",\n  \"args\": \x7b\n    \"pdfUri\": \"" ++
    urlFileUri url ++
    "\"\n  \x7d\n\x7d\n\n❌ DO NOT USE:\n- Python code (print, function calls)\n- Any programming syntax\n- Any other parameters\n\n✅ COPY AND PASTE the exact JSON format above, just change the pdfUri value."

/-- The model-turn branch of `receive` (`env-config.ts:415` to 481): the
defensive marker scan with its corrective send and content event, then the
audio/content demultiplexer, as the ordered list of observable effects. -/
def receiveModelTurn (url : String) (parts : List Part) : List Effect :=
  if containsAnyMarker (stringifyParts parts) then
    [Effect.sendClientContent [Part.text (modelTurnErrorText url)],
     Effect.emitContent [Part.text (modelTurnErrorText url)]]
  else
    (((parts.filter isAudioPart).map audioDataOpt).filterMap (fun b? =>
      match b? with
      | some b64 => if b64 ≠ "" then some (Effect.emitAudio (base64ToArrayBuffer b64)) else none
      | none => none)) ++
    (if (lodashDifference parts (parts.filter isAudioPart)).length = 0 then []
     else [Effect.emitContent (lodashDifference parts (parts.filter isAudioPart))])

/-! ## Session transport (`connect` and `disconnect`) -/

/-- The connection-owning state of the client: the identity of the socket it
currently owns (if any) and the target address. -/
structure ClientState where
  ws : Option Nat
  url : String
deriving Repr, DecidableEq

/-- Embedding of `disconnect` (`env-config.ts:177`): closes the owned socket
when no handle is given or the given handle is the owned one; returns whether
a close occurred together with the updated state. -/
def disconnect (st : ClientState) (handle : Option Nat) : Bool × ClientState :=
  match st.ws, handle with
  | some _, none => (true, { st with ws := none })
  | some cur, some h => if cur = h then (true, { st with ws := none }) else (false, st)
  | none, _ => (false, st)

/-- The two transport-level outcomes a connection attempt can take in this
model: the socket errors before opening, or it opens. -/
inductive ConnectScenario where
  | errorBeforeOpen : ConnectScenario
  | opens : ConnectScenario
deriving Repr, DecidableEq

/-- The observable outcome of one `connect` attempt: how the returned promise
settles, whether the Setup frame was sent, which sockets had `close()` called
on them, and the resulting client state. -/
structure ConnectOutcome where
  result : Except String Bool
  sentSetup : Bool
  closedSockets : List Nat
  finalState : ClientState
deriving Repr

/-- Embedding of `connect` (`env-config.ts:115`): on an error before open the
handler calls `this.disconnect(ws)` on the fresh socket and rejects with the
connection-error message embedding the address; on open the Setup frame is
sent, the socket becomes owned, and the promise resolves. -/
def connectAttempt (st : ClientState) (newWs : Nat) (scen : ConnectScenario) : ConnectOutcome :=
  match scen with
  | .errorBeforeOpen =>
    let r := disconnect st (some newWs)
    { result := Except.error ("Could not connect to \"" ++ st.url ++ "\""),
      sentSetup := false,
      closedSockets := if r.1 then st.ws.toList else [],
      finalState := r.2 }
  | .opens =>
    { result := Except.ok true,
      sentSetup := true,
      closedSockets := [],
      finalState := { st with ws := some newWs } }

/-! ## Config storage and `getConfig` (`env-config.ts:92`) -/

/-- The top-level record of a `LiveConfig` object: a scalar field and a
reference to a nested object (the system-instruction parts). -/
structure ConfigRec where
  model : String
  sysRef : Nat
deriving Repr, DecidableEq

/-- An object heap: config records addressed by index, and the nested
system-instruction objects they reference. -/
structure ConfigHeap where
  configs : List ConfigRec
  sysObjs : List String
deriving Repr, DecidableEq

/-- Embedding of `getConfig` returning `{...this.config}`: allocates a fresh
top-level record whose fields (including the nested reference) are copied
from the stored record, and returns its address. -/
def getConfigOp (h : ConfigHeap) (addr : Nat) : Nat × ConfigHeap :=
  (h.configs.length, { h with configs := h.configs ++ [h.configs.getD addr ⟨"", 0⟩] })

/-- The observable content of a config object: its scalar field and the
content of the nested object it references. -/
def readConfig (h : ConfigHeap) (addr : Nat) : Option (String × Option String) :=
  (h.configs[addr]?).map (fun r => (r.model, h.sysObjs[r.sysRef]?))

/-- Assignment to a top-level property of the config object at `addr`
(`returned.model = m` in JavaScript). -/
def assignModel (h : ConfigHeap) (addr : Nat) (m : String) : ConfigHeap :=
  match h.configs[addr]? with
  | some r => { h with configs := h.configs.set addr { r with model := m } }
  | none => h

/-- Mutation of the nested object reachable from the config object at `addr`
(`returned.systemInstruction.parts[0] = v` in JavaScript). -/
def assignSysContent (h : ConfigHeap) (addr : Nat) (v : String) : ConfigHeap :=
  match h.configs[addr]? with
  | some r => { h with sysObjs := h.sysObjs.set r.sysRef v }
  | none => h

/-! ## Observation helpers over effect lists -/

/-- The ToolResponse entries carried by one effect. -/
def entriesOf : Effect → List ToolResponseEntry
  | .sendToolResponse es => es
  | _ => []

/-- All ToolResponse entries sent during a processing pass, in order. -/
def responseEntries (effs : List Effect) : List ToolResponseEntry :=
  (effs.map entriesOf).flatten

/-- The ids answered during a processing pass, in order. -/
def responseIds (effs : List Effect) : List String :=
  (responseEntries effs).map (fun e => e.id)

/-- The function-call ids present in a frame, in order. -/
def frameIds (tc : ToolCall) : List String :=
  tc.functionCalls.map (fun fc => fc.id)

/-- Whether a response object carries the key `k`. -/
def hasKey (v : JValue) (k : String) : Bool := (objKeys v).contains k

/-- Whether an effect is the `toolcall` event. -/
def isEmitToolcallEff : Effect → Bool
  | .emitToolcall _ => true
  | _ => false

/-! ## Helper lemmas -/

theorem responseEntries_append (l1 l2 : List Effect) :
    responseEntries (l1 ++ l2) = responseEntries l1 ++ responseEntries l2 := by
  simp [responseEntries]

theorem responseIds_append (l1 l2 : List Effect) :
    responseIds (l1 ++ l2) = responseIds l1 ++ responseIds l2 := by
  simp [responseIds, responseEntries_append]

theorem validateCall_entry (fc : FunctionCall) (e : ToolResponseEntry)
    (he : e ∈ responseEntries (validateCall fc).2) :
    e.id = fc.id ∧ (e.response = invalidFormatResponse ∨ e.response = invalidStructureResponse) := by
  unfold validateCall at he
  split at he
  · simp [responseEntries, entriesOf] at he
  · split at he
    · simp [responseEntries, entriesOf] at he
    · split at he
      · simp [responseEntries, entriesOf] at he
        subst he
        exact ⟨rfl, Or.inl rfl⟩
      · split at he
        · simp [responseEntries, entriesOf] at he
          subst he
          exact ⟨rfl, Or.inr rfl⟩
        · simp [responseEntries, entriesOf] at he

theorem gate_entry (calls : List FunctionCall) (e : ToolResponseEntry)
    (he : e ∈ responseEntries (gateEffects calls)) :
    ∃ fc ∈ calls, e.id = fc.id ∧
      (e.response = invalidFormatResponse ∨ e.response = invalidStructureResponse) := by
  induction calls with
  | nil => simp [gateEffects, responseEntries] at he
  | cons fc t ih =>
    have hsplit : gateEffects (fc :: t) = (validateCall fc).2 ++ gateEffects t := by
      simp [gateEffects]
    rw [hsplit, responseEntries_append] at he
    rcases List.mem_append.mp he with h1 | h2
    · exact ⟨fc, List.mem_cons_self fc t, validateCall_entry fc e h1⟩
    · obtain ⟨g, hg, hgi⟩ := ih h2
      exact ⟨g, List.mem_cons_of_mem fc hg, hgi⟩

theorem callAttempt_fst_fetch (f : String → Except Unit String) (fc : FunctionCall)
    (e : Effect) (h : (callAttempt f fc).1 = some e) :
    ∃ u, e = Effect.fetchExec u := by
  unfold callAttempt at h
  split at h
  · simp at h
  · simp at h
    exact ⟨_, h.symm⟩

theorem responseEntries_fetchExecEffects (f : String → Except Unit String)
    (valids : List FunctionCall) :
    responseEntries (fetchExecEffects f valids) = [] := by
  induction valids with
  | nil => rfl
  | cons fc t ih =>
    have hsplit : fetchExecEffects f (fc :: t) =
        ((callAttempt f fc).1).toList ++ fetchExecEffects f t := by
      cases h : (callAttempt f fc).1 <;> simp [fetchExecEffects, List.filterMap_cons, h]
    rw [hsplit, responseEntries_append, ih]
    cases h : (callAttempt f fc).1 with
    | none => simp [responseEntries]
    | some e =>
      obtain ⟨u, hu⟩ := callAttempt_fst_fetch f fc e h
      subst hu
      simp [responseEntries, entriesOf]

theorem validateCall_fst_true (fc : FunctionCall) (h : (validateCall fc).1 = true) :
    jsTruthy (objGetD fc.args "pdfUri") = true ∧ (objKeys fc.args).length = 1 := by
  unfold validateCall at h
  split at h
  · simp at h
  · split at h
    · simp at h
    · split at h
      · simp at h
      · split at h
        · simp at h
        · rename_i hcond
          push_neg at hcond
          exact ⟨by simpa using hcond.1, hcond.2⟩

theorem exec_entry (f : String → Except Unit String) (valids : List FunctionCall)
    (e : ToolResponseEntry) (he : e ∈ responseEntries (execEffects f valids)) :
    ∃ fc ∈ valids, e.id = fc.id := by
  unfold execEffects at he
  split at he
  · rw [responseEntries_append, responseEntries_fetchExecEffects] at he
    simp only [List.nil_append] at he
    split at he
    · simp [responseEntries, entriesOf] at he
      obtain ⟨a, b, hab, hae⟩ := he
      exact ⟨a, (List.of_mem_zip hab).1, by rw [← hae]⟩
    · simp [responseEntries, entriesOf] at he
      obtain ⟨fc, hfc, hfe⟩ := he
      exact ⟨fc, hfc, by rw [← hfe]⟩
  · simp [responseEntries] at he

theorem lodashDifference_filter (l : List Part) (p : Part → Bool) :
    lodashDifference l (l.filter p) = l.filter (fun x => !(p x)) := by
  unfold lodashDifference
  refine List.filter_congr ?_
  intro x hx
  have hmem : (l.filter p).contains x = p x := by
    cases hp : p x with
    | true => simp [List.elem_iff, List.mem_filter, hx, hp]
    | false => simp [List.elem_iff, List.mem_filter, hp]
  rw [hmem]

theorem map_filterMap_audio (l : List Part) :
    (l.map audioDataOpt).filterMap (fun b? =>
      match b? with
      | some b64 => if b64 ≠ "" then some (Effect.emitAudio (base64ToArrayBuffer b64)) else none
      | none => none) =
    ((l.filterMap audioDataOpt).filter (fun b => b ≠ "")).map
      (fun b64 => Effect.emitAudio (base64ToArrayBuffer b64)) := by
  induction l with
  | nil => rfl
  | cons q t ih =>
    cases hq : audioDataOpt q with
    | none => simpa [List.filterMap_cons, hq] using ih
    | some b =>
      by_cases hb : b = ""
      · simpa [List.filterMap_cons, hq, hb] using ih
      · simpa [List.filterMap_cons, hq, hb] using ih

/-! ## Claim theorems -/

/-- C7: for every inbound model turn whose serialized parts contain a
disallowed programmatic-syntax marker, normal audio and content emission is
skipped entirely; instead exactly one corrective text message is sent back
into the session and the same corrective text is emitted once as a `content`
event. -/
theorem modelTurn_marker_corrective (url : String) (parts : List Part)
    (h : containsAnyMarker (stringifyParts parts) = true) :
    receiveModelTurn url parts =
      [Effect.sendClientContent [Part.text (modelTurnErrorText url)],
       Effect.emitContent [Part.text (modelTurnErrorText url)]] := by
  simp [receiveModelTurn, h]

/-- Witness for C7 at a turn carrying the marker of an interpreter call in a
text part. -/
theorem modelTurn_marker_corrective_witness :
    receiveModelTurn "wss://host?key=k" [Part.text "print(1)"] =
      [Effect.sendClientContent [Part.text (modelTurnErrorText "wss://host?key=k")],
       Effect.emitContent [Part.text (modelTurnErrorText "wss://host?key=k")]] :=
  modelTurn_marker_corrective "wss://host?key=k" [Part.text "print(1)"] (by decide)

/-- C8: `disconnect` with a handle that is not the currently-owned transport
returns false and leaves the state unchanged, and a close occurring (result
true) implies that no handle was given or the handle is the owned one. -/
theorem disconnect_stale_handle_guard (st : ClientState) :
    (∀ h : Nat, st.ws ≠ some h → disconnect st (some h) = (false, st)) ∧
    (∀ w : Option Nat, (disconnect st w).1 = true → w = none ∨ w = st.ws) := by
  obtain ⟨ws, url⟩ := st
  constructor
  · intro h hne
    cases ws with
    | none => rfl
    | some cur =>
      have hc : cur ≠ h := by
        intro he
        exact hne (by simp [he])
      simp [disconnect, hc]
  · intro w hw
    cases ws with
    | none =>
      cases w <;> simp [disconnect] at hw
    | some cur =>
      cases w with
      | none => exact Or.inl rfl
      | some h =>
        by_cases hc : cur = h
        · exact Or.inr (by simp [hc])
        · simp [disconnect, hc] at hw

/-- Witness for C8: owned socket 5, stale handle 7 is refused; a close with
the owned handle 5 satisfies the identity disjunction. -/
theorem disconnect_stale_handle_guard_witness :
    disconnect ⟨some 5, "u"⟩ (some 7) = (false, ⟨some 5, "u"⟩) ∧
    ((some 5 : Option Nat) = none ∨ (some 5 : Option Nat) = some 5) :=
  ⟨(disconnect_stale_handle_guard ⟨some 5, "u"⟩).1 7 (by decide),
   (disconnect_stale_handle_guard ⟨some 5, "u"⟩).2 (some 5) (by decide)⟩

/-- C9 counterexample: on an error before open with no previously-owned
socket, the promise rejects with the address-embedding message and no Setup
frame is sent, but close is never invoked on the erroring socket (socket
0 is absent from `closedSockets`), so the half-open transport is not torn
down as the claim states. -/
theorem connect_error_no_teardown_counterexample :
    (connectAttempt ⟨none, "wss://example-host"⟩ 0 ConnectScenario.errorBeforeOpen).closedSockets
        = [] ∧
    (connectAttempt ⟨none, "wss://example-host"⟩ 0 ConnectScenario.errorBeforeOpen).result =
      Except.error ("Could not connect to \"wss://example-host\"") ∧
    (connectAttempt ⟨none, "wss://example-host"⟩ 0 ConnectScenario.errorBeforeOpen).sentSetup
        = false :=
  ⟨rfl, rfl, rfl⟩

/-- C9 amended: when the transport errors before opening (the fresh socket is
never the owned one), the attempt rejects with the connection-error message
embedding the target address, no Setup frame is sent, and no socket is
closed: the identity-guarded disconnect is a no-op for the not-yet-owned
socket, so the half-open transport is not torn down. -/
theorem connect_error_reject_no_setup (st : ClientState) (newWs : Nat)
    (hfresh : st.ws ≠ some newWs) :
    connectAttempt st newWs ConnectScenario.errorBeforeOpen =
      { result := Except.error ("Could not connect to \"" ++ st.url ++ "\""),
        sentSetup := false, closedSockets := [], finalState := st } := by
  obtain ⟨ws, url⟩ := st
  cases ws with
  | none => rfl
  | some cur =>
    have hc : cur ≠ newWs := by
      intro he
      exact hfresh (by simp [he])
    simp [connectAttempt, disconnect, hc]

/-- Witness for C9 amended at an owned socket 3 and a fresh socket 4. -/
theorem connect_error_reject_no_setup_witness :
    connectAttempt ⟨some 3, "wss://h"⟩ 4 ConnectScenario.errorBeforeOpen =
      { result := Except.error ("Could not connect to \"wss://h\""),
        sentSetup := false, closedSockets := [], finalState := ⟨some 3, "wss://h"⟩ } :=
  connect_error_reject_no_setup ⟨some 3, "wss://h"⟩ 4 (by decide)

/-- C10 counterexample: `getConfig` returns a spread of the stored config, a
shallow copy, so mutating the nested system-instruction object through the
returned copy changes the stored config: after the mutation the stored config
at address 0 reads "mutated" where it read "inst" before. -/
theorem getConfig_nested_mutation_counterexample :
    readConfig (assignSysContent (getConfigOp ⟨[⟨"gemini", 0⟩], ["inst"]⟩ 0).2
        (getConfigOp ⟨[⟨"gemini", 0⟩], ["inst"]⟩ 0).1 "mutated") 0 =
      some ("gemini", some "mutated") ∧
    readConfig ⟨[⟨"gemini", 0⟩], ["inst"]⟩ 0 = some ("gemini", some "inst") :=
  ⟨rfl, rfl⟩

/-- C10 amended: the spread copy is a fresh top-level object, so assigning a
top-level property of the returned object leaves the stored config unchanged;
only nested objects are shared (as the counterexample shows). -/
theorem getConfig_shallow_copy_top_level (h : ConfigHeap) (addr : Nat) (m : String)
    (ha : addr < h.configs.length) :
    (getConfigOp h addr).1 ≠ addr ∧
    readConfig (assignModel (getConfigOp h addr).2 (getConfigOp h addr).1 m) addr =
      readConfig h addr := by
  constructor
  · exact (Nat.ne_of_lt ha).symm
  · have hget : ((getConfigOp h addr).2.configs)[(getConfigOp h addr).1]? =
        some (h.configs.getD addr ⟨"", 0⟩) := by
      simp [getConfigOp, List.getElem?_concat_length h.configs (h.configs.getD addr ⟨"", 0⟩)]
    simp only [assignModel, hget]
    simp [readConfig, getConfigOp, List.getElem?_set_ne (Nat.ne_of_lt ha).symm,
      List.getElem?_append_left ha]

/-- C2 counterexample: a marker-bearing frame with two function calls (ids
"1" and "2") is answered with a single corrective entry for id "1" only, not
with an entry for every id present in the frame as the claim states. -/
theorem frame_marker_multi_id_counterexample :
    containsAnyMarker (stringifyToolCallFrame
        ⟨[⟨"1", "pdf_lookup", JValue.obj [("pdfUri", JValue.str "print(x)")]⟩,
          ⟨"2", "pdf_lookup", JValue.obj [("pdfUri", JValue.str "files/ok")]⟩]⟩) = true ∧
    frameIds ⟨[⟨"1", "pdf_lookup", JValue.obj [("pdfUri", JValue.str "print(x)")]⟩,
               ⟨"2", "pdf_lookup", JValue.obj [("pdfUri", JValue.str "files/ok")]⟩]⟩ = ["1", "2"] ∧
    responseIds (receiveToolCall (fun _ => Except.ok "")
        ⟨[⟨"1", "pdf_lookup", JValue.obj [("pdfUri", JValue.str "print(x)")]⟩,
          ⟨"2", "pdf_lookup", JValue.obj [("pdfUri", JValue.str "files/ok")]⟩]⟩) = ["1"] :=
  ⟨rfl, rfl, rfl⟩

/-- C2 amended: a frame whose serialization contains a disallowed syntax
marker is rejected immediately with a single corrective ToolResponse entry
whose id is the id of the first call (or the literal "error" when the frame
has no calls or the first id is empty); nothing else happens: no fetch is
executed, and no further effect is produced. -/
theorem frame_marker_single_entry (tc : ToolCall) (f : String → Except Unit String)
    (h : containsAnyMarker (stringifyToolCallFrame tc) = true) :
    receiveToolCall f tc =
      [Effect.sendToolResponse [⟨firstIdOrError tc, codeSyntaxResponse⟩]] := by
  simp [receiveToolCall, h]

/-- Witness for C2 amended at a one-call marker-bearing frame. -/
theorem frame_marker_single_entry_witness :
    receiveToolCall (fun _ => Except.ok "")
        ⟨[⟨"1", "pdf_lookup", JValue.obj [("pdfUri", JValue.str "print(x)")]⟩]⟩ =
      [Effect.sendToolResponse [⟨"1", codeSyntaxResponse⟩]] :=
  frame_marker_single_entry
    ⟨[⟨"1", "pdf_lookup", JValue.obj [("pdfUri", JValue.str "print(x)")]⟩]⟩
    (fun _ => Except.ok "") (by decide)

/-- C3 counterexample, two concrete calls refuting the claim on two counts.
First, a pdf_lookup call whose args is an array is excluded from execution
but receives no corrective ToolResponse at all (the whole processing pass
answers no id), contradicting the claimed corrective entry.  Second, a
pdf_lookup call whose single pdfUri key holds the number 5 (a truthy
non-string) is not excluded: its fetch is executed with the coerced uri "5"
and it receives a success text response instead of the claimed corrective
entry. -/
theorem args_validation_counterexample :
    (receiveToolCall (fun _ => Except.ok "") ⟨[⟨"1", "pdf_lookup", JValue.arr []⟩]⟩ =
        [Effect.emitToolcall ⟨[⟨"1", "pdf_lookup", JValue.arr []⟩]⟩] ∧
      responseIds (receiveToolCall (fun _ => Except.ok "")
        ⟨[⟨"1", "pdf_lookup", JValue.arr []⟩]⟩) = []) ∧
    receiveToolCall (fun _ => Except.ok "txt")
        ⟨[⟨"2", "pdf_lookup", JValue.obj [("pdfUri", JValue.num 5)]⟩]⟩ =
      [Effect.fetchExec "5",
       Effect.sendToolResponse [⟨"2", JValue.obj [("text", JValue.str "txt")]⟩],
       Effect.emitToolcall ⟨[⟨"2", "pdf_lookup", JValue.obj [("pdfUri", JValue.num 5)]⟩]⟩] :=
  ⟨⟨rfl, rfl⟩, rfl⟩

/-- C3 amended: for a call named pdf_lookup, non-mapping args lead to silent
exclusion with no corrective response; mapping args with a disallowed pattern
in their serialization draw the format-error response; mapping args without a
pattern but with a falsy pdfUri or a key count other than one draw the
structure-error response; mapping args with exactly one key whose pdfUri
value is truthy — of any type, a non-string such as a number included — pass
validation with no corrective response; a call failing validation never joins
the valid (execution) set, and a call passing it always does. -/
theorem validateCall_rejection_behavior (fc : FunctionCall) (hname : fc.name = "pdf_lookup") :
    (isPlainObject fc.args = false → validateCall fc = (false, [])) ∧
    (isPlainObject fc.args = true → hasInvalidPattern fc.args = true →
      validateCall fc = (false, [Effect.sendToolResponse [⟨fc.id, invalidFormatResponse⟩]])) ∧
    (isPlainObject fc.args = true → hasInvalidPattern fc.args = false →
      (jsTruthy (objGetD fc.args "pdfUri") = false ∨ (objKeys fc.args).length ≠ 1) →
      validateCall fc = (false, [Effect.sendToolResponse [⟨fc.id, invalidStructureResponse⟩]])) ∧
    (isPlainObject fc.args = true → hasInvalidPattern fc.args = false →
      jsTruthy (objGetD fc.args "pdfUri") = true → (objKeys fc.args).length = 1 →
      validateCall fc = (true, [])) ∧
    ((validateCall fc).1 = false → ∀ calls : List FunctionCall, fc ∉ validCalls calls) ∧
    ((validateCall fc).1 = true → ∀ calls : List FunctionCall, fc ∈ calls →
      fc ∈ validCalls calls) := by
  have hn : ¬(fc.name ≠ "pdf_lookup") := by simp [hname]
  refine ⟨?_, ?_, ?_, ?_, ?_, ?_⟩
  · intro hobj
    unfold validateCall
    rw [if_neg hn, if_pos (by simp [hobj])]
  · intro hobj hpat
    unfold validateCall
    rw [if_neg hn, if_neg (by simp [hobj]), if_pos (by simp [hpat])]
  · intro hobj hpat hbad
    unfold validateCall
    rw [if_neg hn, if_neg (by simp [hobj]), if_neg (by simp [hpat]), if_pos hbad]
  · intro hobj hpat htr hlen
    unfold validateCall
    rw [if_neg hn, if_neg (by simp [hobj]), if_neg (by simp [hpat]),
      if_neg (by simp [htr, hlen])]
  · intro hf calls hmem
    have hp := (List.mem_filter.mp hmem).2
    rw [hf] at hp
    exact Bool.noConfusion hp
  · intro ht calls hmem
    exact List.mem_filter.mpr ⟨hmem, by rw [ht]⟩

/-- Witness for C3 amended at two concrete calls: the array-args call is
rejected silently and kept out of the valid set, and the call whose single
pdfUri key holds the truthy non-string number 5 passes validation and joins
the valid set. -/
theorem validateCall_rejection_behavior_witness :
    (validateCall ⟨"1", "pdf_lookup", JValue.arr []⟩ = (false, []) ∧
      (⟨"1", "pdf_lookup", JValue.arr []⟩ : FunctionCall) ∉
        validCalls [⟨"1", "pdf_lookup", JValue.arr []⟩]) ∧
    validateCall ⟨"2", "pdf_lookup", JValue.obj [("pdfUri", JValue.num 5)]⟩ = (true, []) ∧
    (⟨"2", "pdf_lookup", JValue.obj [("pdfUri", JValue.num 5)]⟩ : FunctionCall) ∈
      validCalls [⟨"2", "pdf_lookup", JValue.obj [("pdfUri", JValue.num 5)]⟩] := by
  have h1 := validateCall_rejection_behavior ⟨"1", "pdf_lookup", JValue.arr []⟩ rfl
  have h2 := validateCall_rejection_behavior
    ⟨"2", "pdf_lookup", JValue.obj [("pdfUri", JValue.num 5)]⟩ rfl
  exact ⟨⟨h1.1 rfl, h1.2.2.2.2.1 rfl [⟨"1", "pdf_lookup", JValue.arr []⟩]⟩,
    h2.2.2.2.1 rfl (by decide) rfl rfl,
    h2.2.2.2.2.2 rfl [⟨"2", "pdf_lookup", JValue.obj [("pdfUri", JValue.num 5)]⟩]
      (List.mem_cons_self _ _)⟩

/-- C5 counterexample: a frame whose serialization contains a disallowed
marker is rejected by an early return, and the raw ToolCall payload is then
never published: no `toolcall` event occurs in the processing pass,
contradicting the claim that it is published regardless of outcome. -/
theorem marker_frame_no_toolcall_event_counterexample :
    containsAnyMarker (stringifyToolCallFrame ⟨[⟨"1", "x", JValue.str "executableCode"⟩]⟩)
      = true ∧
    (receiveToolCall (fun _ => Except.ok "") ⟨[⟨"1", "x", JValue.str "executableCode"⟩]⟩).all
      (fun e => !(isEmitToolcallEff e)) = true :=
  ⟨rfl, rfl⟩

/-- C5 amended: for every frame that passes the whole-frame marker scan, the
raw ToolCall is published via the `toolcall` event as the final effect of the
processing pass, whatever the validation and execution outcome. -/
theorem clean_frame_emits_toolcall (tc : ToolCall) (f : String → Except Unit String)
    (h : containsAnyMarker (stringifyToolCallFrame tc) = false) :
    ∃ rest, receiveToolCall f tc = rest ++ [Effect.emitToolcall tc] := by
  refine ⟨gateEffects tc.functionCalls ++ execEffects f (validCalls tc.functionCalls), ?_⟩
  simp [receiveToolCall, h]

/-- Witness for C5 amended at a clean one-call frame. -/
theorem clean_frame_emits_toolcall_witness :
    ∃ rest, receiveToolCall (fun _ => Except.ok "hello")
        ⟨[⟨"1", "pdf_lookup", JValue.obj [("pdfUri", JValue.str "files/abc")]⟩]⟩ =
      rest ++ [Effect.emitToolcall
        ⟨[⟨"1", "pdf_lookup", JValue.obj [("pdfUri", JValue.str "files/abc")]⟩]⟩] :=
  clean_frame_emits_toolcall
    ⟨[⟨"1", "pdf_lookup", JValue.obj [("pdfUri", JValue.str "files/abc")]⟩]⟩
    (fun _ => Except.ok "hello") (by decide)

/-- C1 counterexample: a turn whose single part is an audio part with an
empty base64 payload has N = 1 audio parts, yet processing emits no audio
event at all (the decoded-empty guard `if (b64)` skips it), contradicting
the claim that exactly N audio events are emitted. -/
theorem modelTurn_empty_audio_data_counterexample :
    ([Part.inlineData ⟨"audio/pcm", ""⟩].filter isAudioPart).length = 1 ∧
    receiveModelTurn "wss://u" [Part.inlineData ⟨"audio/pcm", ""⟩] = [] :=
  ⟨rfl, rfl⟩

/-- C1 amended: for a model turn free of syntax markers, processing emits one
audio event per audio part with a non-empty payload, in original order and
carrying the base64-decoded bytes, followed by at most one content event
carrying the non-audio parts in their original relative order; the content
event is present iff the non-audio partition is non-empty. -/
theorem modelTurn_demux_order (url : String) (parts : List Part)
    (hclean : containsAnyMarker (stringifyParts parts) = false) :
    receiveModelTurn url parts =
      (((parts.filter isAudioPart).filterMap audioDataOpt).filter (fun b => b ≠ "")).map
        (fun b64 => Effect.emitAudio (base64ToArrayBuffer b64)) ++
      (if (parts.filter (fun p => !(isAudioPart p))).length = 0 then []
       else [Effect.emitContent (parts.filter (fun p => !(isAudioPart p)))]) := by
  unfold receiveModelTurn
  rw [if_neg (by simp [hclean]), map_filterMap_audio, lodashDifference_filter]

/-- Witness for C1 amended: one audio part with payload and one text part
give one decoded audio event then one content event with the text part. -/
theorem modelTurn_demux_order_witness :
    receiveModelTurn "u" [Part.inlineData ⟨"audio/pcm", "AAAA"⟩, Part.text "hi"] =
      [Effect.emitAudio [0, 0, 0], Effect.emitContent [Part.text "hi"]] :=
  (modelTurn_demux_order "u" [Part.inlineData ⟨"audio/pcm", "AAAA"⟩, Part.text "hi"]
    (by decide)).trans (by rfl)

/-- C4 counterexample: a marker-bearing frame whose only call has the empty
string as id is answered with the fallback id "error", which is not among
the ids present in the frame, contradicting the claim that every answered id
occurs in the frame. -/
theorem error_id_fallback_counterexample :
    responseIds (receiveToolCall (fun _ => Except.ok "")
        ⟨[⟨"", "pdf_lookup", JValue.obj [("pdfUri", JValue.str "print(")]⟩]⟩) = ["error"] ∧
    frameIds ⟨[⟨"", "pdf_lookup", JValue.obj [("pdfUri", JValue.str "print(")]⟩]⟩ = [""] ∧
    "error" ∉ frameIds ⟨[⟨"", "pdf_lookup", JValue.obj [("pdfUri", JValue.str "print(")]⟩]⟩ := by
  refine ⟨rfl, rfl, by decide⟩

/-- C4 amended: every id appearing in an emitted ToolResponse is an id
present in the frame being answered, except for the literal "error" that the
whole-frame marker rejection falls back to when the frame has no calls or the
first id is empty; in particular, for frames passing the marker scan every
answered id occurs in the frame. -/
theorem toolcall_response_ids (tc : ToolCall) (f : String → Except Unit String) :
    (∀ i ∈ responseIds (receiveToolCall f tc), i ∈ frameIds tc ∨ i = "error") ∧
    (containsAnyMarker (stringifyToolCallFrame tc) = false →
      ∀ i ∈ responseIds (receiveToolCall f tc), i ∈ frameIds tc) := by
  have hclean : ∀ (_ : containsAnyMarker (stringifyToolCallFrame tc) = false),
      ∀ i ∈ responseIds (receiveToolCall f tc), i ∈ frameIds tc := by
    intro hm i hi
    rw [show receiveToolCall f tc = gateEffects tc.functionCalls ++
        execEffects f (validCalls tc.functionCalls) ++ [Effect.emitToolcall tc] from by
          simp [receiveToolCall, hm]] at hi
    rw [responseIds_append, responseIds_append] at hi
    rcases List.mem_append.mp hi with hg | hlast
    · rcases List.mem_append.mp hg with h1 | h2
      · obtain ⟨e, he, hei⟩ := List.mem_map.mp h1
        obtain ⟨fc, hfc, hid, _⟩ := gate_entry tc.functionCalls e he
        rw [← hei, hid]
        exact List.mem_map_of_mem (fun g => g.id) hfc
      · obtain ⟨e, he, hei⟩ := List.mem_map.mp h2
        obtain ⟨fc, hfc, hid⟩ := exec_entry f (validCalls tc.functionCalls) e he
        rw [← hei, hid]
        exact List.mem_map_of_mem (fun g => g.id) (List.mem_filter.mp hfc).1
    · simp [responseIds, responseEntries, entriesOf] at hlast
  refine ⟨?_, hclean⟩
  intro i hi
  cases hmarker : containsAnyMarker (stringifyToolCallFrame tc) with
  | false => exact Or.inl (hclean hmarker i hi)
  | true =>
    rw [show receiveToolCall f tc =
        [Effect.sendToolResponse [⟨firstIdOrError tc, codeSyntaxResponse⟩]] from by
          simp [receiveToolCall, hmarker]] at hi
    simp only [responseIds, responseEntries, entriesOf, List.map_cons, List.map_nil,
      List.flatten, List.append_nil, List.mem_cons, List.not_mem_nil, or_false] at hi
    subst hi
    unfold firstIdOrError
    cases hcalls : tc.functionCalls with
    | nil => exact Or.inr rfl
    | cons fc t =>
      by_cases hid : fc.id = ""
      · simp [hid]
      · refine Or.inl ?_
        simp only [hid, if_false, frameIds, hcalls, List.map_cons]
        exact List.mem_cons_self _ _

/-- Witness for C4 amended at a clean frame whose only call (id "7") is
rejected for a missing pdfUri key: the answered id "7" is in the frame. -/
theorem toolcall_response_ids_witness :
    ("7" ∈ frameIds ⟨[⟨"7", "pdf_lookup", JValue.obj []⟩]⟩ ∨ "7" = "error") ∧
    "7" ∈ frameIds ⟨[⟨"7", "pdf_lookup", JValue.obj []⟩]⟩ :=
  ⟨(toolcall_response_ids ⟨[⟨"7", "pdf_lookup", JValue.obj []⟩]⟩ (fun _ => Except.ok "")).1
      "7" (by decide),
   (toolcall_response_ids ⟨[⟨"7", "pdf_lookup", JValue.obj []⟩]⟩ (fun _ => Except.ok "")).2
      (by decide) "7" (by decide)⟩

/-- C6: for a clean frame with a non-empty valid set, if any fetch of the
batch fails then the whole valid subset receives one uniform corrective
error entry per valid id, and no entry sent during the pass carries a text
field (no partial success). -/
theorem fetch_failure_uniform_batch (tc : ToolCall) (f : String → Except Unit String)
    (hm : containsAnyMarker (stringifyToolCallFrame tc) = false)
    (hne : (validCalls tc.functionCalls).length ≠ 0)
    (hfail : ∃ fc ∈ validCalls tc.functionCalls,
      fetchOk (f (jsToString (objGetD fc.args "pdfUri"))) = false) :
    receiveToolCall f tc =
      gateEffects tc.functionCalls ++
        (fetchExecEffects f (validCalls tc.functionCalls) ++
          [Effect.sendToolResponse ((validCalls tc.functionCalls).map
            (fun fc => ⟨fc.id, fetchFailResponse⟩))]) ++
        [Effect.emitToolcall tc] ∧
    ∀ e ∈ responseEntries (receiveToolCall f tc), hasKey e.response "text" = false := by
  have hall : (attemptResults f (validCalls tc.functionCalls)).all fetchOk = false := by
    obtain ⟨fc, hfc, hbad⟩ := hfail
    have htr := (validateCall_fst_true fc (List.mem_filter.mp hfc).2).1
    have hatt : (callAttempt f fc).2 = f (jsToString (objGetD fc.args "pdfUri")) := by
      unfold callAttempt
      rw [if_neg (by simp [htr])]
    cases hA : (attemptResults f (validCalls tc.functionCalls)).all fetchOk with
    | false => rfl
    | true =>
      exfalso
      have hmem : (callAttempt f fc).2 ∈ attemptResults f (validCalls tc.functionCalls) :=
        List.mem_map_of_mem _ hfc
      have hok := (List.all_eq_true.mp hA) _ hmem
      rw [hatt, hbad] at hok
      exact Bool.noConfusion hok
  have hexec : execEffects f (validCalls tc.functionCalls) =
      fetchExecEffects f (validCalls tc.functionCalls) ++
        [Effect.sendToolResponse ((validCalls tc.functionCalls).map
          (fun fc => ⟨fc.id, fetchFailResponse⟩))] := by
    unfold execEffects
    rw [if_pos (Nat.pos_of_ne_zero hne), if_neg (by simp [hall])]
  have hrun : receiveToolCall f tc =
      gateEffects tc.functionCalls ++
        (fetchExecEffects f (validCalls tc.functionCalls) ++
          [Effect.sendToolResponse ((validCalls tc.functionCalls).map
            (fun fc => ⟨fc.id, fetchFailResponse⟩))]) ++
        [Effect.emitToolcall tc] := by
    unfold receiveToolCall
    rw [if_neg (by simp [hm]), hexec]
  refine ⟨hrun, ?_⟩
  intro e he
  rw [hrun, responseEntries_append, responseEntries_append, responseEntries_append,
    responseEntries_fetchExecEffects] at he
  rcases List.mem_append.mp he with hg | hlast
  · rcases List.mem_append.mp hg with h1 | h2
    · obtain ⟨fc, _, _, hresp⟩ := gate_entry tc.functionCalls e h1
      rcases hresp with hr | hr <;> rw [hr] <;> rfl
    · simp only [List.nil_append] at h2
      simp only [responseEntries, entriesOf, List.map_cons, List.map_nil, List.flatten,
        List.append_nil] at h2
      obtain ⟨fc, _, hfe⟩ := List.mem_map.mp h2
      rw [← hfe]
      rfl
  · simp [responseEntries, entriesOf] at hlast

/-- Witness for C6 at a clean one-call frame whose fetch fails. -/
theorem fetch_failure_uniform_batch_witness :
    receiveToolCall (fun _ => Except.error ())
        ⟨[⟨"1", "pdf_lookup", JValue.obj [("pdfUri", JValue.str "files/a")]⟩]⟩ =
      gateEffects [⟨"1", "pdf_lookup", JValue.obj [("pdfUri", JValue.str "files/a")]⟩] ++
        (fetchExecEffects (fun _ => Except.error ())
          (validCalls [⟨"1", "pdf_lookup", JValue.obj [("pdfUri", JValue.str "files/a")]⟩]) ++
          [Effect.sendToolResponse
            ((validCalls [⟨"1", "pdf_lookup", JValue.obj [("pdfUri", JValue.str "files/a")]⟩]).map
              (fun fc => ⟨fc.id, fetchFailResponse⟩))]) ++
        [Effect.emitToolcall
          ⟨[⟨"1", "pdf_lookup", JValue.obj [("pdfUri", JValue.str "files/a")]⟩]⟩] ∧
    ∀ e ∈ responseEntries (receiveToolCall (fun _ => Except.error ())
        ⟨[⟨"1", "pdf_lookup", JValue.obj [("pdfUri", JValue.str "files/a")]⟩]⟩),
      hasKey e.response "text" = false :=
  fetch_failure_uniform_batch
    ⟨[⟨"1", "pdf_lookup", JValue.obj [("pdfUri", JValue.str "files/a")]⟩]⟩
    (fun _ => Except.error ()) (by decide) (by decide)
    ⟨⟨"1", "pdf_lookup", JValue.obj [("pdfUri", JValue.str "files/a")]⟩,
      List.mem_cons_self _ _, by decide⟩

/-- Witness for C10 amended at a one-config heap. -/
theorem getConfig_shallow_copy_top_level_witness :
    (getConfigOp ⟨[⟨"g", 0⟩], ["i"]⟩ 0).1 ≠ 0 ∧
    readConfig (assignModel (getConfigOp ⟨[⟨"g", 0⟩], ["i"]⟩ 0).2
        (getConfigOp ⟨[⟨"g", 0⟩], ["i"]⟩ 0).1 "x") 0 =
      readConfig ⟨[⟨"g", 0⟩], ["i"]⟩ 0 :=
  getConfig_shallow_copy_top_level ⟨[⟨"g", 0⟩], ["i"]⟩ 0 "x" (by decide)

end MMClient
